import Mathlib

/-
Verification of the RAG (retrieval-augmented generation) service of this
repository: `src/modules/rag/rag.service.ts` and
`src/modules/rag/rag.controller.ts`.

Modelling conventions
  * Parsed JSON values are modelled by the mutual inductive `Json` below.
    JSON numbers are modelled as integers (the dataset handling never does
    arithmetic on them; they are only tested for truthiness and printed).
  * JavaScript property access `item[field]` on a parsed JSON value is
    modelled by `jsGet`: objects yield the property (last duplicate wins,
    as after `JSON.parse`), `null` raises a TypeError, and every other
    value has none of the looked-up properties.
  * File system access and `JSON.parse` are outside the program text under
    verification; `loadDocuments` therefore takes the parsed JSON value.
  * The external LangChain QA chain (`this.qaChain.call`) is modelled as an
    explicit parameter of type `Option (String → Except String ChainResult)`
    (`none` = the service field is still unset).  `askQuestionT` also
    returns the list of query strings handed to the chain, so that theorems
    can speak about which calls were made.
  * Thrown JavaScript errors are modelled by `Except String`, carrying the
    error message.
-/

mutual
inductive Json : Type where
  | null : Json
  | bool (b : Bool) : Json
  | num (n : Int) : Json
  | str (s : String) : Json
  | arr (elems : JsonArray) : Json
  | obj (members : JsonObject) : Json

inductive JsonArray : Type where
  | nil : JsonArray
  | cons (head : Json) (tail : JsonArray) : JsonArray

inductive JsonObject : Type where
  | nil : JsonObject
  | cons (key : String) (value : Json) (tail : JsonObject) : JsonObject
end

def Json.isNull : Json → Bool
  | .null => true
  | _ => false

def Json.isArr : Json → Bool
  | .arr _ => true
  | _ => false

/-- JavaScript truthiness of a parsed JSON value: `null`, `false`, `0` and
the empty string are falsy, everything else (including `[]` and `{ }`) is
truthy. -/
def jsTruthy : Json → Bool
  | .null => false
  | .bool b => b
  | .num n => n != 0
  | .str s => s != ""
  | .arr _ => true
  | .obj _ => true

/-- Property lookup in a parsed JSON object.  The last occurrence of a key
wins, matching what `JSON.parse` keeps for duplicate keys. -/
def JsonObject.lookupLast : JsonObject → String → Option Json
  | .nil, _ => none
  | .cons k v tl, f =>
      match JsonObject.lookupLast tl f with
      | some w => some w
      | none => if k = f then some v else none

/-- Lookup in a metadata record built by the service (a plain key/value
list, later entries overriding earlier ones, as object spread does). -/
def jsLookup (kvs : List (String × Json)) (f : String) : Option Json :=
  kvs.foldl (fun acc kv => if kv.1 = f then some kv.2 else acc) none

/-- JavaScript property access `item[field]` for a parsed JSON value. -/
def jsGet : Json → String → Except String (Option Json)
  | .null, f => .error ("TypeError: Cannot read properties of null (reading " ++ f ++ ")")
  | .obj ms, f => .ok (ms.lookupLast f)
  | _, _ => .ok none

def sp (n : Nat) : String := String.mk (List.replicate n ' ')

def hexDigit (n : Nat) : Char :=
  if n < 10 then Char.ofNat (48 + n) else Char.ofNat (87 + n)

/-- Escaping of one character inside a JSON string literal, as
`JSON.stringify` performs it. -/
def jsonEscapeChar (c : Char) : String :=
  if c = '"' then "\\\""
  else if c = '\\' then "\\\\"
  else if c = '\x08' then "\\b"
  else if c = '\x0c' then "\\f"
  else if c = '\n' then "\\n"
  else if c = '\r' then "\\r"
  else if c = '\t' then "\\t"
  else if c.toNat < 32 then "\\u00" ++ String.mk [hexDigit (c.toNat / 16), hexDigit (c.toNat % 16)]
  else String.singleton c

def jsonQuote (s : String) : String :=
  "\"" ++ String.join (s.data.map jsonEscapeChar) ++ "\""

mutual
/-- `JSON.stringify(value, null, 2)` rendered at nesting depth `d`
(members of a value at depth `d` are indented by `d + 2` spaces). -/
def Json.stringify2 : Json → Nat → String
  | .null, _ => "null"
  | .bool b, _ => cond b "true" "false"
  | .num n, _ => toString n
  | .str s, _ => jsonQuote s
  | .arr elems, d =>
      match JsonArray.stringifyItems elems (d + 2) with
      | [] => "[]"
      | items =>
          "[\n" ++ String.intercalate ",\n" (items.map (fun t => sp (d + 2) ++ t))
            ++ "\n" ++ sp d ++ "]"
  | .obj members, d =>
      match JsonObject.stringifyMembers members (d + 2) with
      | [] => "\x7b\x7d"
      | items =>
          "\x7b\n" ++ String.intercalate ",\n" (items.map (fun t => sp (d + 2) ++ t))
            ++ "\n" ++ sp d ++ "\x7d"

def JsonArray.stringifyItems : JsonArray → Nat → List String
  | .nil, _ => []
  | .cons x xs, d => Json.stringify2 x d :: JsonArray.stringifyItems xs d

def JsonObject.stringifyMembers : JsonObject → Nat → List String
  | .nil, _ => []
  | .cons k v tl, d =>
      (jsonQuote k ++ ": " ++ Json.stringify2 v d) :: JsonObject.stringifyMembers tl d
end

mutual
/-- JavaScript string coercion `String(value)` of a parsed JSON value, as a
template literal performs it (arrays join their elements with commas,
rendering `null` elements as the empty string; objects render as
`[object Object]`). -/
def jsToString : Json → String
  | .null => "null"
  | .bool b => cond b "true" "false"
  | .num n => toString n
  | .str s => s
  | .arr elems => String.intercalate "," (JsonArray.joinParts elems)
  | .obj _ => "[object Object]"

def JsonArray.joinParts : JsonArray → List String
  | .nil => []
  | .cons x xs =>
      (match x with
       | .null => ""
       | y => jsToString y) :: JsonArray.joinParts xs
end

/-- `String.prototype.trim`, modelled for the ASCII whitespace characters
(space, tab, newline, carriage return, vertical tab, form feed). -/
def wsChar (c : Char) : Bool :=
  c = ' ' || c = '\t' || c = '\n' || c = '\r' || c = '\x0b' || c = '\x0c'

def jsTrim (s : String) : String :=
  String.mk (((s.data.dropWhile wsChar).reverse.dropWhile wsChar).reverse)

/- ------------------------------------------------------------------ -/
/- Embedding of `rag.service.ts`.                                      -/
/- ------------------------------------------------------------------ -/

/-- The field allow-list of `extractContentFromItem`
(`rag.service.ts:164-187`), in source order. -/
def contentFields : List String :=
  ["nama", "name", "title", "judul", "deskripsi", "description", "desc",
   "kategori", "category", "jenis", "type", "alamat", "address", "lokasi",
   "location", "produk", "product", "layanan", "service", "keterangan",
   "info", "detail"]

/-- The field allow-list of `extractMetadataFromItem`
(`rag.service.ts:207-219`), in source order. -/
def metadataFields : List String :=
  ["id", "kategori", "category", "jenis", "type", "alamat", "address",
   "kota", "city", "provinsi", "province"]

/-- A `forEach` over field names whose body may throw: the first thrown
error aborts the iteration. -/
def foldFieldsE {β : Type} (step : β → String → Except String β) :
    List String → β → Except String β
  | [], acc => .ok acc
  | f :: fs, acc =>
      match step acc f with
      | .error e => .error e
      | .ok acc2 => foldFieldsE step fs acc2

/-- One iteration of the `contentFields.forEach` body
(`rag.service.ts:189-193`): push `"<field>: <value>"` when `item[field]`
is truthy and of type string. -/
def contentStep (item : Json) (acc : List String) (f : String) :
    Except String (List String) :=
  match jsGet item f with
  | .error e => .error e
  | .ok none => .ok acc
  | .ok (some jv) =>
      if jsTruthy jv then
        match jv with
        | .str s => .ok (acc ++ [f ++ ": " ++ s])
        | _ => .ok acc
      else .ok acc

/-- `extractContentFromItem` (`rag.service.ts:159-201`). -/
def extractContentFromItem (item : Json) : Except String String :=
  match foldFieldsE (contentStep item) contentFields [] with
  | .error e => .error e
  | .ok parts =>
      .ok (String.intercalate "\n"
        (if parts.length = 0 then parts ++ [Json.stringify2 item 0] else parts))

/-- One iteration of the `metadataFields.forEach` body
(`rag.service.ts:221-225`): copy the field when `item[field]` is truthy. -/
def metadataStep (item : Json) (acc : List (String × Json)) (f : String) :
    Except String (List (String × Json)) :=
  match jsGet item f with
  | .error e => .error e
  | .ok none => .ok acc
  | .ok (some jv) => if jsTruthy jv then .ok (acc ++ [(f, jv)]) else .ok acc

/-- `extractMetadataFromItem` (`rag.service.ts:203-228`). -/
def extractMetadataFromItem (item : Json) :
    Except String (List (String × Json)) :=
  foldFieldsE (metadataStep item) metadataFields []

/-- A LangChain `Document` as the service builds it. -/
structure Document : Type where
  pageContent : String
  metadata : List (String × Json)

/-- Building the document of one record (`rag.service.ts:120-131` and
`136-148`): page content from `extractContentFromItem`, metadata
`{ source, index, ...extractMetadataFromItem(item) }`. -/
def documentFor (item : Json) (index : Nat) : Except String Document :=
  match extractContentFromItem item with
  | .error e => .error e
  | .ok content =>
      match extractMetadataFromItem item with
      | .error e => .error e
      | .ok md =>
          .ok ⟨content,
               ("source", Json.str "dataset_umkm.json")
                 :: ("index", Json.num index) :: md⟩

/-- The elements of a parsed JSON array, as a Lean list. -/
def JsonArray.toList : JsonArray → List Json
  | .nil => []
  | .cons x xs => x :: JsonArray.toList xs

/-- The `jsonData.forEach((item, index) => ...)` loop of `loadDocuments`
(`rag.service.ts:119-133`), starting at position `i`. -/
def mapDocs : List Json → Nat → Except String (List Document)
  | [], _ => .ok []
  | item :: rest, i =>
      match documentFor item i with
      | .error e => .error e
      | .ok d =>
          match mapDocs rest (i + 1) with
          | .error e => .error e
          | .ok ds => .ok (d :: ds)

/-- `loadDocuments` (`rag.service.ts:99-157`), applied to the parsed
content of `dataset_umkm.json`: an array yields one document per record; a
non-array value is handled as a single record with index 0. -/
def loadDocuments (jsonData : Json) : Except String (List Document) :=
  match jsonData with
  | .arr items => mapDocs items.toList 0
  | j =>
      match documentFor j 0 with
      | .error e => .error e
      | .ok d => .ok [d]

/- ------------------------------------------------------------------ -/
/- `askQuestion`, `getInsights` and the controller.                    -/
/- ------------------------------------------------------------------ -/

/-- The object returned by `this.qaChain.call({ query })`: the generated
`text`, a possible `answer` key, and `sourceDocuments` (present because the
chain is created with `returnSourceDocuments: true`). -/
structure ChainResult : Type where
  text : Option String
  answer : Option String
  sourceDocuments : Option (List Document)

structure RagQueryResponse : Type where
  answer : String
  sources : List String

def fallbackAnswer : String := "Tidak dapat menemukan jawaban yang sesuai."

/-- JavaScript `a || b` on an optional string `a`: `b` when `a` is absent
or falsy (the empty string). -/
def jsStrOr : Option String → String → String
  | some s, b => if s = "" then b else s
  | none, b => b

/-- One iteration of the `sourceDocuments.forEach` body
(`rag.service.ts:245-250`): `doc.metadata?.source || 'Unknown source'` and
`doc.metadata?.index !== undefined ? doc.metadata.index : index`,
rendered as `"<source> (Document <index>)"`. -/
def renderSource (doc : Document) (pos : Nat) : String :=
  (match jsLookup doc.metadata "source" with
   | some v => if jsTruthy v then jsToString v else "Unknown source"
   | none => "Unknown source")
  ++ " (Document " ++
  (match jsLookup doc.metadata "index" with
   | some v => jsToString v
   | none => toString pos)
  ++ ")"

def renderSources : List Document → Nat → List String
  | [], _ => []
  | d :: ds, i => renderSource d i :: renderSources ds (i + 1)

/-- `[...new Set(sources)]`: removes duplicates, keeping the first
occurrence of each string, in order. -/
def dedupPreserve (xs : List String) : List String :=
  xs.foldl (fun acc s => if s ∈ acc then acc else acc ++ [s]) []

/-- The source list built by `askQuestion` (`rag.service.ts:242-258`). -/
def extractSources (docs : List Document) : List String :=
  dedupPreserve (renderSources docs 0)

/-- `askQuestion` (`rag.service.ts:230-264`), instrumented: besides the
result it returns the list of query strings handed to the QA chain.  The
whole body sits in a `try` whose `catch` rethrows
`Failed to process query: <message>`, including for the
`RAG system is not initialized` error thrown when `this.qaChain` is still
unset. -/
def askQuestionT (qaChain : Option (String → Except String ChainResult))
    (query : String) : Except String RagQueryResponse × List String :=
  match qaChain with
  | none => (.error ("Failed to process query: RAG system is not initialized"), [])
  | some chain =>
      match chain query with
      | .error e => (.error ("Failed to process query: " ++ e), [query])
      | .ok res =>
          (.ok ⟨jsStrOr res.text (jsStrOr res.answer fallbackAnswer),
                extractSources
                  (match res.sourceDocuments with
                   | some ds => ds
                   | none => [])⟩,
           [query])

/-- The hard-coded insights prompt (`rag.service.ts:268-304`). -/
def insightsPrompt : String :=
  "Buatkan key insight dan key strategy berdasarkan data di atas.\n  \n  **Pola Penting:**\n  1. Hubungan antara sentimen positif dan engagement: Apakah benar konten positif menghasilkan engagement 40% lebih tinggi?\n  2. Analisis sentimen netral: Peluang apa yang bisa ditangkap UMKM untuk meningkatkan daya saing dari opini yang belum jelas positif/negative?\n  3. Dari sentimen positif, aspek apa yang paling sering dipuji (harga, kualitas, pelayanan, inovasi)? Bagaimana UMKM bisa memanfaatkan hal ini untuk branding?\n  4. Berdasarkan analisis sentimen, strategi komunikasi digital apa yang sebaiknya dijalankan UMKM untuk meningkatkan citra di media sosial?\n  5. Mengapa hanya 0.6% konten yang berhasil memicu emosi positif?\n  6. Potensi Tersembunyi: Apakah ada postingan netral dengan engagement tinggi yang sebenarnya bisa dikategorikan positif?\n  7. Analisis bagaimana UMKM lokal di Indonesia saat ini memanfaatkan media sosial untuk membangun citra brand. Identifikasi gap antara penggunaan media sosial tradisional dengan pendekatan analisis sentimen yang lebih canggih. Berikan data statistik terkini dan contoh kasus nyata.\n  \n  **Arah Analisis:**\n  - Fokus pada: Strategi konten\n  - Tujuan: Meningkatkan engagement melalui konten yang lebih emosional\n  - Stakeholder: Tim marketing\n  \n  **Format Output:**\n  1. **Headline Insight**: 1 kalimat singkat yang paling mencolok\n  2. **Data Pendukung**: 3-5 angka kunci terkait\n  3. **Analisis Mendalam**:\n     - Penyebab potensial\n     - Implikasi bisnis\n     - Perbandingan dengan benchmark\n  4. **Rekomendasi Aksi**:\n     - 2-3 langkah konkret\n     - Timeline implementasi\n     - Metrik sukses\n  5. **Risiko & Peluang**:\n     - Risiko jika tidak diatasi\n     - Peluang yang bisa dimanfaatkan\n  6. **Saran dan Strategy**:\n     - Saran untuk UMKM kedepannya\n     - Strategy yang nanti digunakan kedepannya\n  \n  **Tingkat Kedalaman:** Komprehensif\n  \n  Berikan jawaban yang terstruktur dan mendalam berdasarkan data yang tersedia."

/-- `getInsights` (`rag.service.ts:266-312`): calls `askQuestion` on the
hard-coded prompt; its own `catch` rethrows
`Failed to generate insights: <message>`. -/
def getInsightsT (qaChain : Option (String → Except String ChainResult)) :
    Except String RagQueryResponse × List String :=
  match askQuestionT qaChain insightsPrompt with
  | (.error e, log) => (.error ("Failed to generate insights: " ++ e), log)
  | (.ok r, log) => (.ok r, log)

/- ------------------------------------------------------------------ -/
/- Embedding of `rag.controller.ts` and the prompt template.           -/
/- ------------------------------------------------------------------ -/

structure CreateQueryDto : Type where
  question : String

/-- `RagController.query` (`rag.controller.ts:10-21`): calls
`askQuestion(queryDto.question.trim())`. -/
def ragControllerQuery (qaChain : Option (String → Except String ChainResult))
    (dto : CreateQueryDto) : Except String RagQueryResponse × List String :=
  askQuestionT qaChain (jsTrim dto.question)

/-- Text of the prompt template (`rag.service.ts:73-84`) before the
`context` placeholder. -/
def promptPre : String :=
  "\n        Namamu Adalah Sentinela\n        Gunakan konteks berikut untuk menjawab pertanyaan tentang UMKM (Usaha Mikro, Kecil, dan Menengah).\n        Berikan jawaban yang informatif dan akurat berdasarkan data yang tersedia.\n        \n        Konteks:\n        "

/-- Text of the prompt template between the `context` and `question`
placeholders. -/
def promptMid : String := "\n        \n        Pertanyaan: "

/-- Text of the prompt template after the `question` placeholder. -/
def promptPost : String := "\n        \n        Jawaban:\n      "

/-- The full template literal passed to `PromptTemplate.fromTemplate`. -/
def promptTemplate : String :=
  promptPre ++ "{context}" ++ promptMid ++ "{question}" ++ promptPost

/-- Substitution of the two placeholders of `promptTemplate`. -/
def formatPrompt (context question : String) : String :=
  promptPre ++ context ++ promptMid ++ question ++ promptPost

/-- Modelled from the spec: the `RetrievalQAChain` built in
`initializeRag` (`rag.service.ts:87-90`) is not part of this repository;
per the spec it retrieves documents for the query, joins their texts into
a single context block, substitutes context and question into the fixed
template, sends the prompt to the chat model, and returns the generated
text together with the retrieved source documents. -/
def stuffChain (retriever : String → List Document) (llm : String → String)
    (q : String) : ChainResult :=
  let docs := retriever q
  ⟨some (llm (formatPrompt (String.intercalate "\n\n" (docs.map Document.pageContent)) q)),
   none, some docs⟩

/- ------------------------------------------------------------------ -/
/- Models of the claims' wording, to be compared with the embedding.   -/
/- ------------------------------------------------------------------ -/

/-- The fields "present in the record" in the claims' sense: object
properties; non-object records have none. -/
def claimFieldGet (item : Json) (f : String) : Option Json :=
  match item with
  | .obj ms => ms.lookupLast f
  | _ => none

/-- The content line an allow-listed field contributes, per the amended
claim C1: one line `"<field>: <value>"` for each field present with a
non-empty string value. -/
def contentLine (item : Json) (f : String) : Option String :=
  match claimFieldGet item f with
  | some (.str s) => if s = "" then none else some (f ++ ": " ++ s)
  | _ => none

/-- Document text per the amended claim C1: the contributed lines in
allow-list order joined by newlines, or the pretty-printed JSON of the
record when no field contributes. -/
def claimContent (item : Json) : String :=
  let lines := contentFields.filterMap (contentLine item)
  if lines = [] then Json.stringify2 item 0 else String.intercalate "\n" lines

/-- The metadata entry an allow-listed field contributes, per the amended
claim C2: a copy of each field present with a truthy value. -/
def metadataEntry (item : Json) (f : String) : Option (String × Json) :=
  match claimFieldGet item f with
  | some v => if jsTruthy v then some (f, v) else none
  | none => none

/-- Document metadata per the amended claim C2: the source label, the
positional index, then the contributed allow-list copies, and nothing
else. -/
def claimMetadata (item : Json) (index : Nat) : List (String × Json) :=
  ("source", Json.str "dataset_umkm.json") :: ("index", Json.num index)
    :: metadataFields.filterMap (metadataEntry item)

/-- A source reference per claim C4: `"<source> (Document <index>)"`,
with `"Unknown source"` when the source metadata is missing and the
enumeration position when the index metadata is missing. -/
def claimRenderSource (doc : Document) (pos : Nat) : String :=
  (match jsLookup doc.metadata "source" with
   | some v => jsToString v
   | none => "Unknown source")
  ++ " (Document " ++
  (match jsLookup doc.metadata "index" with
   | some v => jsToString v
   | none => toString pos)
  ++ ")"

def claimRenderSources : List Document → Nat → List String
  | [], _ => []
  | d :: ds, i => claimRenderSource d i :: claimRenderSources ds (i + 1)

/-- The sources array per claim C4: each retrieved document rendered in
order, exact duplicate strings removed. -/
def claimSources (docs : List Document) : List String :=
  dedupPreserve (claimRenderSources docs 0)

/- ------------------------------------------------------------------ -/
/- Concrete sample inputs used by the witness theorems.                -/
/- ------------------------------------------------------------------ -/

/-- A record with one allow-listed string field and one field outside
every allow-list. -/
def sampleItem : Json :=
  Json.obj (JsonObject.cons "nama" (Json.str "Warung Bu Sri")
    (JsonObject.cons "harga" (Json.num 5000) JsonObject.nil))

/-- A record whose `id` field is present but falsy (`0`). -/
def itemIdZero : Json :=
  Json.obj (JsonObject.cons "id" (Json.num 0)
    (JsonObject.cons "nama" (Json.str "Toko Jaya") JsonObject.nil))

/-- A record with a metadata field (`kota`). -/
def itemKota : Json :=
  Json.obj (JsonObject.cons "nama" (Json.str "Depot Sehat")
    (JsonObject.cons "kota" (Json.str "Bandung") JsonObject.nil))

/-- A two-record dataset. -/
def sampleDataset : Json :=
  Json.arr (JsonArray.cons
    (Json.obj (JsonObject.cons "nama" (Json.str "Depot Maju") JsonObject.nil))
    (JsonArray.cons
      (Json.obj (JsonObject.cons "nama" (Json.str "Depot Mundur") JsonObject.nil))
      JsonArray.nil))

/-- The documents `loadDocuments` builds for `sampleDataset`. -/
def docMaju : Document :=
  ⟨"nama: Depot Maju",
   [("source", Json.str "dataset_umkm.json"), ("index", Json.num 0)]⟩

def docMundur : Document :=
  ⟨"nama: Depot Mundur",
   [("source", Json.str "dataset_umkm.json"), ("index", Json.num 1)]⟩

/-- A chain stub that answers every query with a fixed generation and the
two sample documents as sources. -/
def sampleChain : String → Except String ChainResult :=
  fun _ => .ok ⟨some "jawaban", none, some [docMaju, docMundur]⟩

/-- A chain stub whose generation is the empty string. -/
def emptyTextChain : String → Except String ChainResult :=
  fun _ => .ok ⟨some "", none, some []⟩

/-- A chain stub that echoes the query it receives as its generation. -/
def echoChain : String → Except String ChainResult :=
  fun s => .ok ⟨some s, none, some []⟩

/-- A chain stub that throws. -/
def failingChain : String → Except String ChainResult :=
  fun _ => .error "fetch failed"

/-- A chain stub that succeeds with a fixed short answer and no source
documents. -/
def okChain : String → Except String ChainResult :=
  fun _ => .ok ⟨some "siap", none, some []⟩

/- ------------------------------------------------------------------ -/
/- Helper lemmas.                                                      -/
/- ------------------------------------------------------------------ -/

lemma jsGet_of_not_null (item : Json) (h : item.isNull = false) (f : String) :
    jsGet item f = .ok (claimFieldGet item f) := by
  cases item <;> simp_all [jsGet, claimFieldGet, Json.isNull]

lemma foldFieldsE_push {β : Type} (step : List β → String → Except String (List β))
    (g : String → Option β)
    (hstep : ∀ acc f, step acc f = .ok (acc ++ (g f).toList)) :
    ∀ (fields : List String) (acc : List β),
      foldFieldsE step fields acc = .ok (acc ++ fields.filterMap g) := by
  intro fields
  induction fields with
  | nil => intro acc; simp [foldFieldsE]
  | cons f fs ih =>
      intro acc
      rw [foldFieldsE, hstep]
      cases hg : g f <;> simp [hg, ih, List.filterMap_cons]

lemma contentStep_eq (item : Json) (h : item.isNull = false) :
    ∀ (acc : List String) (f : String),
      contentStep item acc f = .ok (acc ++ (contentLine item f).toList) := by
  intro acc f
  rw [contentStep, jsGet_of_not_null item h]
  unfold contentLine
  cases hv : claimFieldGet item f with
  | none => simp
  | some jv =>
      cases jv <;> simp [jsTruthy]
      rename_i s
      by_cases hs : s = "" <;> simp [hs]

lemma metadataStep_eq (item : Json) (h : item.isNull = false) :
    ∀ (acc : List (String × Json)) (f : String),
      metadataStep item acc f = .ok (acc ++ (metadataEntry item f).toList) := by
  intro acc f
  rw [metadataStep, jsGet_of_not_null item h]
  unfold metadataEntry
  cases hv : claimFieldGet item f with
  | none => simp
  | some jv => by_cases ht : jsTruthy jv <;> simp [ht]

lemma intercalate_singleton (x : String) : String.intercalate "\n" [x] = x := rfl

lemma extractContent_eq (item : Json) (h : item.isNull = false) :
    extractContentFromItem item = .ok (claimContent item) := by
  rw [extractContentFromItem,
      foldFieldsE_push (contentStep item) (contentLine item) (contentStep_eq item h)]
  rw [claimContent]
  by_cases hl : contentFields.filterMap (contentLine item) = []
  · simp [hl, intercalate_singleton]
  · simp [hl, List.length_eq_zero]

lemma extractMetadata_eq (item : Json) (h : item.isNull = false) :
    extractMetadataFromItem item =
      .ok (metadataFields.filterMap (metadataEntry item)) := by
  rw [extractMetadataFromItem,
      foldFieldsE_push (metadataStep item) (metadataEntry item) (metadataStep_eq item h)]
  rfl

lemma documentFor_eq (item : Json) (i : Nat) (h : item.isNull = false) :
    documentFor item i = .ok ⟨claimContent item, claimMetadata item i⟩ := by
  rw [documentFor, extractContent_eq item h, extractMetadata_eq item h]
  rfl

lemma documentFor_not_null (item : Json) (i : Nat) (d : Document)
    (h : documentFor item i = .ok d) : item.isNull = false := by
  cases item <;> first
    | rfl
    | (rw [show documentFor Json.null i
            = .error "TypeError: Cannot read properties of null (reading nama)" from rfl] at h
       exact absurd h (by simp))

lemma mapDocs_get (items : List Json) :
    ∀ (k : Nat) (ds : List Document), mapDocs items k = .ok ds →
      ∀ (i : Nat) (item : Json), items.get? i = some item →
        ∃ d, ds.get? i = some d ∧ documentFor item (k + i) = .ok d := by
  induction items with
  | nil => intro k ds _ i item hi; simp at hi
  | cons x xs ih =>
      intro k ds h i item hi
      rw [mapDocs] at h
      cases hd : documentFor x k with
      | error e => rw [hd] at h; exact absurd h (by simp)
      | ok d =>
          rw [hd] at h
          cases hrest : mapDocs xs (k + 1) with
          | error e => rw [hrest] at h; exact absurd h (by simp)
          | ok ds2 =>
              rw [hrest] at h
              simp only [Except.ok.injEq] at h
              subst h
              cases i with
              | zero =>
                  simp only [List.get?_cons_zero, Option.some.injEq] at hi
                  subst hi
                  exact ⟨d, by simp, by simpa using hd⟩
              | succ n =>
                  simp only [List.get?_cons_succ] at hi
                  obtain ⟨d2, hget, hdoc⟩ := ih (k + 1) ds2 hrest n item hi
                  refine ⟨d2, by simpa using hget, ?_⟩
                  have harith : k + 1 + n = k + (n + 1) := by omega
                  rwa [harith] at hdoc

lemma mapDocs_mem (items : List Json) :
    ∀ (k : Nat) (ds : List Document), mapDocs items k = .ok ds →
      ∀ d ∈ ds, ∃ (item : Json) (i : Nat), documentFor item i = .ok d := by
  induction items with
  | nil =>
      intro k ds h d hd
      rw [mapDocs] at h
      simp only [Except.ok.injEq] at h
      subst h
      simp at hd
  | cons x xs ih =>
      intro k ds h d hd
      rw [mapDocs] at h
      cases hdoc : documentFor x k with
      | error e => rw [hdoc] at h; exact absurd h (by simp)
      | ok d0 =>
          rw [hdoc] at h
          cases hrest : mapDocs xs (k + 1) with
          | error e => rw [hrest] at h; exact absurd h (by simp)
          | ok ds2 =>
              rw [hrest] at h
              simp only [Except.ok.injEq] at h
              subst h
              rcases List.mem_cons.mp hd with heq | htail
              · exact ⟨x, k, by rw [hdoc, heq]⟩
              · exact ih (k + 1) ds2 hrest d htail

lemma metadataEntry_key (item : Json) (f : String) (kv : String × Json)
    (h : metadataEntry item f = some kv) : kv.1 = f := by
  unfold metadataEntry at h
  cases hv : claimFieldGet item f <;> rw [hv] at h
  · exact Option.noConfusion h
  · rename_i v
    have h2 : (if jsTruthy v = true then some (f, v) else (none : Option (String × Json)))
        = some kv := h
    by_cases ht : jsTruthy v = true
    · rw [if_pos ht] at h2
      simp only [Option.some.injEq] at h2
      rw [← h2]
    · rw [if_neg ht] at h2
      exact Option.noConfusion h2

lemma filterMap_metadata_keys (item : Json) :
    ∀ kv ∈ metadataFields.filterMap (metadataEntry item), kv.1 ∈ metadataFields := by
  intro kv hkv
  obtain ⟨f, hf, hgf⟩ := List.mem_filterMap.mp hkv
  rw [metadataEntry_key item f kv hgf]
  exact hf

lemma foldl_lookup_no_key (f : String) :
    ∀ (l : List (String × Json)), (∀ kv ∈ l, kv.1 ≠ f) →
      ∀ acc, l.foldl (fun acc kv => if kv.1 = f then some kv.2 else acc) acc = acc := by
  intro l
  induction l with
  | nil => intro _ acc; rfl
  | cons kv0 tl ih =>
      intro h acc
      have h0 : kv0.1 ≠ f := h kv0 (by simp)
      simp only [List.foldl_cons, if_neg h0]
      exact ih (fun kv hkv => h kv (by simp [hkv])) acc

lemma jsLookup_claimMetadata_source (item : Json) (i : Nat) :
    jsLookup (claimMetadata item i) "source" = some (Json.str "dataset_umkm.json") := by
  unfold jsLookup claimMetadata
  simp only [List.foldl_cons]
  rw [foldl_lookup_no_key "source" _ ?keys]
  · rfl
  case keys =>
      intro kv hkv heq
      have hmem := filterMap_metadata_keys item kv hkv
      rw [heq] at hmem
      exact absurd hmem (by decide)

lemma jsLookup_claimMetadata_index (item : Json) (i : Nat) :
    jsLookup (claimMetadata item i) "index" = some (Json.num i) := by
  unfold jsLookup claimMetadata
  simp only [List.foldl_cons]
  rw [foldl_lookup_no_key "index" _ ?keys]
  · rfl
  case keys =>
      intro kv hkv heq
      have hmem := filterMap_metadata_keys item kv hkv
      rw [heq] at hmem
      exact absurd hmem (by decide)

lemma loadDocuments_doc (j : Json) (docs : List Document)
    (h : loadDocuments j = .ok docs) :
    ∀ d ∈ docs, ∃ (item : Json) (i : Nat), documentFor item i = .ok d := by
  intro d hd
  cases j with
  | arr items => exact mapDocs_mem items.toList 0 docs (by simpa [loadDocuments] using h) d hd
  | null =>
      simp only [loadDocuments] at h
      cases hdoc : documentFor Json.null 0 with
      | error e => rw [hdoc] at h; exact absurd h (by simp)
      | ok d0 =>
          rw [hdoc] at h
          simp only [Except.ok.injEq] at h
          subst h
          simp only [List.mem_singleton] at hd
          exact ⟨Json.null, 0, by rw [hdoc, hd]⟩
  | bool b =>
      simp only [loadDocuments] at h
      cases hdoc : documentFor (Json.bool b) 0 with
      | error e => rw [hdoc] at h; exact absurd h (by simp)
      | ok d0 =>
          rw [hdoc] at h
          simp only [Except.ok.injEq] at h
          subst h
          simp only [List.mem_singleton] at hd
          exact ⟨Json.bool b, 0, by rw [hdoc, hd]⟩
  | num n =>
      simp only [loadDocuments] at h
      cases hdoc : documentFor (Json.num n) 0 with
      | error e => rw [hdoc] at h; exact absurd h (by simp)
      | ok d0 =>
          rw [hdoc] at h
          simp only [Except.ok.injEq] at h
          subst h
          simp only [List.mem_singleton] at hd
          exact ⟨Json.num n, 0, by rw [hdoc, hd]⟩
  | str s =>
      simp only [loadDocuments] at h
      cases hdoc : documentFor (Json.str s) 0 with
      | error e => rw [hdoc] at h; exact absurd h (by simp)
      | ok d0 =>
          rw [hdoc] at h
          simp only [Except.ok.injEq] at h
          subst h
          simp only [List.mem_singleton] at hd
          exact ⟨Json.str s, 0, by rw [hdoc, hd]⟩
  | obj ms =>
      simp only [loadDocuments] at h
      cases hdoc : documentFor (Json.obj ms) 0 with
      | error e => rw [hdoc] at h; exact absurd h (by simp)
      | ok d0 =>
          rw [hdoc] at h
          simp only [Except.ok.injEq] at h
          subst h
          simp only [List.mem_singleton] at hd
          exact ⟨Json.obj ms, 0, by rw [hdoc, hd]⟩

lemma loadDocuments_source (j : Json) (docs : List Document)
    (h : loadDocuments j = .ok docs) :
    ∀ d ∈ docs, jsLookup d.metadata "source" = some (Json.str "dataset_umkm.json") := by
  intro d hd
  obtain ⟨item, i, hdoc⟩ := loadDocuments_doc j docs h d hd
  have hn := documentFor_not_null item i d hdoc
  rw [documentFor_eq item i hn] at hdoc
  simp only [Except.ok.injEq] at hdoc
  rw [← hdoc]
  exact jsLookup_claimMetadata_source item i

lemma renderSource_eq (d : Document) (pos : Nat)
    (h : jsLookup d.metadata "source" = some (Json.str "dataset_umkm.json")) :
    renderSource d pos = claimRenderSource d pos := by
  unfold renderSource claimRenderSource
  rw [h]
  rfl

lemma renderSources_eq (docs : List Document)
    (h : ∀ d ∈ docs, jsLookup d.metadata "source" = some (Json.str "dataset_umkm.json")) :
    ∀ i, renderSources docs i = claimRenderSources docs i := by
  induction docs with
  | nil => intro i; rfl
  | cons d ds ih =>
      intro i
      rw [renderSources, claimRenderSources,
          renderSource_eq d i (h d (by simp)),
          ih (fun x hx => h x (by simp [hx])) (i + 1)]

lemma extractSources_eq (docs : List Document)
    (h : ∀ d ∈ docs, jsLookup d.metadata "source" = some (Json.str "dataset_umkm.json")) :
    extractSources docs = claimSources docs := by
  unfold extractSources claimSources
  rw [renderSources_eq docs h 0]

lemma askQuestionT_ok (chain : String → Except String ChainResult) (q : String)
    (res : ChainResult) (h : chain q = .ok res) :
    askQuestionT (some chain) q =
      (.ok ⟨jsStrOr res.text (jsStrOr res.answer fallbackAnswer),
            extractSources
              (match res.sourceDocuments with
               | some ds => ds
               | none => [])⟩,
       [q]) := by
  rw [askQuestionT, h]

lemma askQuestionT_err (chain : String → Except String ChainResult) (q e : String)
    (h : chain q = .error e) :
    askQuestionT (some chain) q = (.error ("Failed to process query: " ++ e), [q]) := by
  rw [askQuestionT, h]

lemma loadDocuments_single_aux (j : Json) (hA : j.isArr = false)
    (hN : j.isNull = false) :
    loadDocuments j = .ok [⟨claimContent j, claimMetadata j 0⟩] := by
  have hd := documentFor_eq j 0 hN
  cases j with
  | null => simp [Json.isNull] at hN
  | arr elems => simp [Json.isArr] at hA
  | bool b => simp only [loadDocuments]; rw [hd]
  | num n => simp only [loadDocuments]; rw [hd]
  | str s => simp only [loadDocuments]; rw [hd]
  | obj ms => simp only [loadDocuments]; rw [hd]

/- ------------------------------------------------------------------ -/
/- The claims.                                                         -/
/- ------------------------------------------------------------------ -/

/-- C1 (amended): for every non-null JSON record, the document text built
for it consists of one line `"<field>: <value>"` for each field of the
content allow-list that is present in the record with a non-empty string
value, in allow-list order, joined by newlines; when no field contributes
a line, the text is the full pretty-printed JSON of the record.  (The
claim as frozen counts every present field; the code skips fields whose
value is not a non-empty string — see the counterexample — and a null
record makes the extraction throw.) -/
theorem extractContent_allowList_lines (item : Json) (h : item.isNull = false) :
    extractContentFromItem item = .ok (claimContent item) :=
  extractContent_eq item h

/-- Witness for C1 at a concrete record. -/
theorem extractContent_allowList_lines_witness :
    sampleItem.isNull = false
    ∧ extractContentFromItem sampleItem = .ok (claimContent sampleItem)
    ∧ claimContent sampleItem = "nama: Warung Bu Sri" :=
  ⟨rfl, extractContent_allowList_lines sampleItem rfl, rfl⟩

/-- Counterexample to C1 as frozen: the field `nama` is present in the
record `{"nama": ""}`, so the claim demands the text `"nama: "`; the code
treats the empty string as falsy, finds no content field, and falls back
to the pretty-printed JSON object. -/
theorem extractContent_presence_cex :
    extractContentFromItem (Json.obj (JsonObject.cons "nama" (Json.str "") JsonObject.nil))
      = .ok "\x7b\n  \"nama\": \"\"\n\x7d"
    ∧ ("\x7b\n  \"nama\": \"\"\n\x7d" : String) ≠ "nama: " :=
  ⟨rfl, by decide⟩

/-- C2 (amended): for every record at position `i` of the dataset array
(when loading succeeds), the metadata attached to its document equals
`source`/`index` extended with a copy of each metadata allow-list field
that is present in the record with a truthy value, and contains no other
keys.  (The claim as frozen counts every present field; the code skips
fields whose value is falsy — see the counterexample.) -/
theorem loadDocuments_metadata_allowList (items : JsonArray) (docs : List Document)
    (i : Nat) (item : Json)
    (hload : loadDocuments (Json.arr items) = .ok docs)
    (hitem : items.toList.get? i = some item) :
    ∃ c, docs.get? i = some ⟨c, claimMetadata item i⟩ := by
  have h : mapDocs items.toList 0 = .ok docs := by simpa [loadDocuments] using hload
  obtain ⟨d, hget, hdoc⟩ := mapDocs_get items.toList 0 docs h i item hitem
  have hn := documentFor_not_null item (0 + i) d hdoc
  rw [documentFor_eq item (0 + i) hn] at hdoc
  simp only [Except.ok.injEq] at hdoc
  refine ⟨claimContent item, ?_⟩
  rw [← hdoc] at hget
  simpa [Nat.zero_add] using hget

/-- Witness for C2 at a concrete one-record dataset. -/
theorem loadDocuments_metadata_allowList_witness :
    ∃ docs, loadDocuments (Json.arr (JsonArray.cons itemKota JsonArray.nil)) = .ok docs
      ∧ ∃ c, docs.get? 0 = some ⟨c, claimMetadata itemKota 0⟩ :=
  ⟨_, rfl, loadDocuments_metadata_allowList (JsonArray.cons itemKota JsonArray.nil) _ 0
    itemKota rfl rfl⟩

/-- Counterexample to C2 as frozen: the record `{"id": 0, "nama": "Toko
Jaya"}` has the allow-listed field `id`, so the claim demands a copy of it
in the metadata; the code tests `item[field]` for truthiness and drops the
falsy value `0`, leaving only `source` and `index`. -/
theorem metadata_truthiness_cex :
    loadDocuments (Json.arr (JsonArray.cons itemIdZero JsonArray.nil))
      = .ok [⟨"nama: Toko Jaya",
             [("source", Json.str "dataset_umkm.json"), ("index", Json.num 0)]⟩]
    ∧ List.all [("source", Json.str "dataset_umkm.json"), ("index", Json.num 0)]
        (fun kv => kv.1 != "id") = true :=
  ⟨rfl, rfl⟩

/-- C10 (amended): when the dataset JSON parses to a value that is neither
an array nor `null`, `loadDocuments` succeeds and produces exactly one
document, built from that value as a single record, whose metadata index
is 0.  (The claim as frozen admits every non-array value; a `null` dataset
makes the extraction throw a TypeError — see the counterexample — so
initialization does fail there.) -/
theorem loadDocuments_non_array_single_document (j : Json)
    (hA : j.isArr = false) (hN : j.isNull = false) :
    loadDocuments j = .ok [⟨claimContent j, claimMetadata j 0⟩]
    ∧ jsLookup (claimMetadata j 0) "index" = some (Json.num 0) :=
  ⟨loadDocuments_single_aux j hA hN, jsLookup_claimMetadata_index j 0⟩

/-- Witness for C10 at a concrete non-array dataset. -/
theorem loadDocuments_non_array_single_document_witness :
    (Json.str "halo").isArr = false ∧ (Json.str "halo").isNull = false
    ∧ loadDocuments (Json.str "halo")
        = .ok [⟨claimContent (Json.str "halo"), claimMetadata (Json.str "halo") 0⟩]
    ∧ jsLookup (claimMetadata (Json.str "halo") 0) "index" = some (Json.num 0) :=
  ⟨rfl, rfl, loadDocuments_non_array_single_document (Json.str "halo") rfl rfl⟩

/-- Counterexample to C10 as frozen: the JSON value `null` is not an
array, yet `loadDocuments` does not succeed on it — the first property
access of the content extraction throws a TypeError. -/
theorem loadDocuments_null_cex :
    loadDocuments Json.null
      = .error "TypeError: Cannot read properties of null (reading nama)"
    ∧ Json.isArr Json.null = false :=
  ⟨rfl, rfl⟩

/-- C4: for every query answered by `askQuestion` whose retrieved source
documents all come from the loaded dataset, the returned sources array is
obtained by rendering, for each retrieved document in order, the string
`"<source> (Document <index>)"` from its metadata (with the stated
fallbacks for missing metadata), and then removing exact duplicate
strings, keeping first occurrences. -/
theorem askQuestion_sources_format (chain : String → Except String ChainResult)
    (q : String) (res : ChainResult) (docs allDocs : List Document) (j : Json)
    (hres : chain q = .ok res) (hdocs : res.sourceDocuments = some docs)
    (hload : loadDocuments j = .ok allDocs) (hsub : ∀ d ∈ docs, d ∈ allDocs) :
    ∃ ans, (askQuestionT (some chain) q).1 = .ok ⟨ans, claimSources docs⟩ := by
  have hsrc : ∀ d ∈ docs,
      jsLookup d.metadata "source" = some (Json.str "dataset_umkm.json") :=
    fun d hd => loadDocuments_source j allDocs hload d (hsub d hd)
  refine ⟨jsStrOr res.text (jsStrOr res.answer fallbackAnswer), ?_⟩
  rw [askQuestionT_ok chain q res hres]
  simp only [hdocs]
  rw [extractSources_eq docs hsrc]

/-- Witness for C4 at a concrete dataset and chain result. -/
theorem askQuestion_sources_format_witness :
    sampleChain "apa" = .ok ⟨some "jawaban", none, some [docMaju, docMundur]⟩
    ∧ loadDocuments sampleDataset = .ok [docMaju, docMundur]
    ∧ ∃ ans, (askQuestionT (some sampleChain) "apa").1
        = .ok ⟨ans, claimSources [docMaju, docMundur]⟩ :=
  ⟨rfl, rfl,
   askQuestion_sources_format sampleChain "apa"
     ⟨some "jawaban", none, some [docMaju, docMundur]⟩
     [docMaju, docMundur] [docMaju, docMundur] sampleDataset
     rfl rfl rfl (fun _ hd => hd)⟩

/-- C5 (amended): for every query for which the QA chain completes
successfully and the generated text is non-empty, the answer field of
`askQuestion`'s result equals that generated text.  (The claim as frozen
also covers an empty generation, where the code substitutes a fixed
fallback message — see the counterexample.) -/
theorem askQuestion_answer_eq_generated (chain : String → Except String ChainResult)
    (q t : String) (res : ChainResult)
    (hres : chain q = .ok res) (ht : res.text = some t) (hne : t ≠ "") :
    ∃ srcs, (askQuestionT (some chain) q).1 = .ok ⟨t, srcs⟩ := by
  refine ⟨extractSources
    (match res.sourceDocuments with
     | some ds => ds
     | none => []), ?_⟩
  rw [askQuestionT_ok chain q res hres]
  simp [jsStrOr, ht, hne]

/-- Witness for C5 at a concrete successful generation. -/
theorem askQuestion_answer_eq_generated_witness :
    okChain "q" = .ok ⟨some "siap", none, some []⟩
    ∧ ("siap" : String) ≠ ""
    ∧ ∃ srcs, (askQuestionT (some okChain) "q").1 = .ok ⟨"siap", srcs⟩ :=
  ⟨rfl, by decide,
   askQuestion_answer_eq_generated okChain "q" "siap" ⟨some "siap", none, some []⟩
     rfl rfl (by decide)⟩

/-- Counterexample to C5 as frozen: when the chain completes successfully
but the generated text is the empty string, the claim demands the answer
`""`; the code's `result.text || result.answer || ...` cascade substitutes
the fixed fallback message instead. -/
theorem askQuestion_empty_generation_cex :
    (askQuestionT (some emptyTextChain) "pertanyaan").1 = .ok ⟨fallbackAnswer, []⟩
    ∧ fallbackAnswer ≠ "" :=
  ⟨rfl, by decide⟩

/-- C6 (amended): for every HTTP POST /rag/query request, the question
string from the request body, trimmed of leading and trailing whitespace,
is the string handed to the QA chain — which substitutes it, together
with the joined retrieved texts, into the fixed prompt template and uses
it as the retrieval query.  (The claim as frozen says the raw string is
used unchanged; the controller calls `.trim()` on it — see the
counterexample.) -/
theorem controller_trimmed_substitution (retriever : String → List Document)
    (llm : String → String) (dto : CreateQueryDto) :
    (ragControllerQuery (some (fun s => .ok (stuffChain retriever llm s))) dto).2
        = [jsTrim dto.question]
    ∧ stuffChain retriever llm (jsTrim dto.question)
        = ⟨some (llm (formatPrompt
            (String.intercalate "\n\n"
              ((retriever (jsTrim dto.question)).map Document.pageContent))
            (jsTrim dto.question))),
           none, some (retriever (jsTrim dto.question))⟩ :=
  ⟨rfl, rfl⟩

/-- Counterexample to C6 as frozen: for the request body
`{"question": " apa itu umkm "}` the claim demands that the raw string
`" apa itu umkm "` reach the chain unchanged; the controller trims it
first. -/
theorem controller_raw_question_cex :
    (ragControllerQuery (some echoChain) ⟨" apa itu umkm "⟩).2 = ["apa itu umkm"]
    ∧ (" apa itu umkm " : String) ≠ "apa itu umkm" :=
  ⟨rfl, by decide⟩

/-- C7: if `askQuestion` is invoked before the QA chain has been built, it
fails with the explicit error
`Failed to process query: RAG system is not initialized` (the
`not initialized` message wrapped by the method's own catch), and the
empty call log shows that no retrieval or generation call is made. -/
theorem askQuestion_uninitialized_error (q : String) :
    askQuestionT none q
      = (.error "Failed to process query: RAG system is not initialized", []) :=
  rfl

/-- C8: every error thrown while `askQuestion` processes a query is caught
and re-raised exactly once, wrapped as
`Failed to process query: <original message>`; the call log `[q]` shows
the chain was invoked exactly once — no retry — and no partial result is
produced. -/
theorem askQuestion_wraps_chain_error (chain : String → Except String ChainResult)
    (q e : String) (h : chain q = .error e) :
    askQuestionT (some chain) q = (.error ("Failed to process query: " ++ e), [q]) :=
  askQuestionT_err chain q e h

/-- Witness for C8 at a concrete failing chain. -/
theorem askQuestion_wraps_chain_error_witness :
    failingChain "q" = .error "fetch failed"
    ∧ askQuestionT (some failingChain) "q"
        = (.error "Failed to process query: fetch failed", ["q"]) :=
  ⟨rfl, askQuestion_wraps_chain_error failingChain "q" "fetch failed" rfl⟩

/-- C9: `getInsights` performs no retrieval or generation of its own:
whenever `askQuestion` applied to the fixed hard-coded prompt returns a
result, `getInsights` returns exactly that result, and it makes exactly
the chain calls `askQuestion` makes (the call logs coincide). -/
theorem getInsights_delegates_to_askQuestion
    (qaChain : Option (String → Except String ChainResult)) (r : RagQueryResponse)
    (h : (askQuestionT qaChain insightsPrompt).1 = .ok r) :
    getInsightsT qaChain = (.ok r, (askQuestionT qaChain insightsPrompt).2) := by
  cases hx : askQuestionT qaChain insightsPrompt with
  | mk fst snd =>
      have hf : fst = .ok r := by rw [hx] at h; exact h
      subst hf
      rw [getInsightsT, hx]

/-- Witness for C9 at a concrete successful chain. -/
theorem getInsights_delegates_to_askQuestion_witness :
    (askQuestionT (some okChain) insightsPrompt).1 = .ok ⟨"siap", []⟩
    ∧ getInsightsT (some okChain)
        = (.ok ⟨"siap", []⟩, (askQuestionT (some okChain) insightsPrompt).2) :=
  ⟨rfl, getInsights_delegates_to_askQuestion (some okChain) ⟨"siap", []⟩ rfl⟩
